import Mathlib

/-!
Verification of the data-normalization and derived-metrics pipeline of the
Machine-Monitoring-System dashboard (src/unnamed/part_000).

The JavaScript source is shallowly embedded: a JS value reaching the pipeline
is modelled by `JSVal` (a finite number as an exact rational, NaN, a string,
null, or undefined).  JS doubles are idealized as rationals; every finite
double has an exact finite decimal representation, which is what the string
conversions below rely on.  The JS builtins used by the source
(`Number`, `parseInt`, `parseFloat`, `Date.parse`, `toString`, `trim`,
`replace`, truthiness, `||`, `??`, `==`) are modelled on the fragment of
their behaviour exercised by row data: decimal numeric literals (exponent
and hex notation are not modelled), ISO `YYYY-MM-DD[THH:MM:SSZ]` date
strings, and ASCII whitespace.
-/

attribute [local semireducible] Rat.mul Rat.add Rat.sub Rat.inv

namespace MMS

/-- A JavaScript value as it can appear in an API row or in normalized data:
a finite number (idealized as an exact rational), NaN, a string, null, or
undefined (also used for an absent object field). -/
inductive JSVal where
  | num (q : ℚ)
  | nan
  | str (s : String)
  | null
  | undef
deriving DecidableEq

/-- JS truthiness: 0, NaN, the empty string, null and undefined are falsy. -/
def JSVal.truthy : JSVal → Bool
  | .num q => decide (q ≠ 0)
  | .nan => false
  | .str s => decide (s ≠ "")
  | .null => false
  | .undef => false

/-- The JS `a || b` operator: the first operand if truthy, else the second. -/
def jsOr (a b : JSVal) : JSVal := if a.truthy then a else b

/-- The JS `a ?? b` operator: the second operand only when the first is
null or undefined. -/
def jsCoalesce (a b : JSVal) : JSVal :=
  match a with
  | .null => b
  | .undef => b
  | _ => a

/-- Is the value a (finite) number? -/
def isNum : JSVal → Bool
  | .num _ => true
  | _ => false

/-- Is the value a string? -/
def isStr : JSVal → Bool
  | .str _ => true
  | _ => false

/-- Is the value a number or null (the shape of a normalized alert metric)? -/
def isNumOrNull : JSVal → Bool
  | .num _ => true
  | .null => true
  | _ => false

/-! ### Characters, digit strings, and decimal rendering -/

/-- ASCII whitespace, the fragment of JS whitespace exercised by row data. -/
def isWs (c : Char) : Bool := c = ' ' || c = '\t' || c = '\n' || c = '\r'

/-- Is the character a decimal digit? -/
def isDig (c : Char) : Bool := decide ('0' ≤ c) && decide (c ≤ '9')

/-- Numeric value of a digit character. -/
def dval (c : Char) : ℕ := c.toNat - 48

/-- The digit character for a value below ten. -/
def digitChar (d : ℕ) : Char := Char.ofNat (48 + d)

/-- Fuel-driven digit extraction, least significant first; the fuel only
needs to be at least the value, since dividing by ten shrinks it. -/
def natDigitsAux : ℕ → ℕ → List Char
  | 0, _ => []
  | _ + 1, 0 => []
  | fuel + 1, n + 1 => digitChar ((n + 1) % 10) :: natDigitsAux fuel ((n + 1) / 10)

/-- Decimal digits of a natural number, least significant first
(empty for zero). -/
def natDigitsRev (n : ℕ) : List Char := natDigitsAux n n

/-- Decimal digits of a natural number, most significant first. -/
def natToDigits (n : ℕ) : List Char :=
  if n = 0 then ['0'] else (natDigitsRev n).reverse

/-- Value of a most-significant-first digit string. -/
def digitsVal (ds : List Char) : ℕ := ds.foldl (fun a c => 10 * a + dval c) 0

/-- Digits of `n` left-padded with zeros to width `w`. -/
def padDigits (w n : ℕ) : List Char :=
  List.replicate (w - (natToDigits n).length) '0' ++ natToDigits n

/-- Greedily parse a run of decimal digits: value, number of digits
consumed, and remaining characters. -/
def parseDigits : List Char → ℕ × ℕ × List Char
  | [] => (0, 0, [])
  | c :: cs =>
    if isDig c then
      let p := parseDigits cs
      (dval c * 10 ^ p.2.1 + p.1, p.2.1 + 1, p.2.2)
    else (0, 0, c :: cs)

/-- Parse an unsigned decimal literal `digits [. digits]` (at least one digit
overall), returning its value and the remaining characters. -/
def parseUnsignedFloat (cs : List Char) : Option (ℚ × List Char) :=
  let p := parseDigits cs
  match p.2.2 with
  | '.' :: cs2 =>
    let f := parseDigits cs2
    if p.2.1 + f.2.1 = 0 then none
    else some ((p.1 : ℚ) + (f.1 : ℚ) / 10 ^ f.2.1, f.2.2)
  | rest => if p.2.1 = 0 then none else some ((p.1 : ℚ), rest)

/-- Parse an optionally signed decimal literal. -/
def parseSignedFloat (cs : List Char) : Option (ℚ × List Char) :=
  match cs with
  | '-' :: cs2 => (parseUnsignedFloat cs2).map (fun p => (-p.1, p.2))
  | '+' :: cs2 => parseUnsignedFloat cs2
  | _ => parseUnsignedFloat cs

/-- Drop leading and trailing whitespace (JS `String.prototype.trim`). -/
def trimL (cs : List Char) : List Char :=
  ((cs.dropWhile isWs).reverse.dropWhile isWs).reverse

/-- Drop leading and trailing whitespace of a string. -/
def trimStr (s : String) : String := String.mk (trimL s.toList)

/-- Remove the first occurrence of a character
(JS `String.prototype.replace` with a single-character pattern and an
empty replacement). -/
def removeFirst (c : Char) : List Char → List Char
  | [] => []
  | x :: xs => if x = c then xs else x :: removeFirst c xs

/-- Does `cs` start with `pat`? -/
def startsWithL : List Char → List Char → Bool
  | _, [] => true
  | [], _ :: _ => false
  | c :: cs, p :: ps => c = p && startsWithL cs ps

/-- Does `cs` contain `pat` as a contiguous substring
(JS `String.prototype.includes`)? -/
def containsL : List Char → List Char → Bool
  | [], pat => pat.isEmpty
  | c :: cs, pat => startsWithL (c :: cs) pat || containsL cs pat

/-- Substring test on strings. -/
def containsSub (s pat : String) : Bool := containsL s.toList pat.toList

/-- JS `parseFloat` on a string: skip leading whitespace and parse the
longest signed decimal-literal prefix; `none` models NaN. -/
def parseFloatStr (s : String) : Option ℚ :=
  (parseSignedFloat (s.toList.dropWhile isWs)).map (fun p => p.1)

/-- Parse a run of digits as an integer, `none` when there is no digit. -/
def parseIntCore (cs : List Char) : Option ℤ :=
  let p := parseDigits cs
  if p.2.1 = 0 then none else some (p.1 : ℤ)

/-- JS `parseInt` (base 10) on a string: skip leading whitespace, optional
sign, then the longest digit prefix; `none` models NaN. -/
def parseIntStr (s : String) : Option ℤ :=
  match s.toList.dropWhile isWs with
  | '-' :: cs => (parseIntCore cs).map (fun z => -z)
  | '+' :: cs => parseIntCore cs
  | cs => parseIntCore cs

/-- JS `Number(string)`: trimmed-empty is 0; otherwise the whole trimmed
string must be a signed decimal literal; `none` models NaN. -/
def numberOfString (s : String) : Option ℚ :=
  match trimL s.toList with
  | [] => some 0
  | cs =>
    match parseSignedFloat cs with
    | some (q, []) => some q
    | _ => none

/-- Least exponent `m ≤ d` with `d ∣ 10 ^ m`, when one exists (it does
exactly when `d` has only 2 and 5 as prime factors). -/
def minDecExp (d : ℕ) : Option ℕ :=
  (List.range (d + 1)).find? (fun m => decide (d ∣ 10 ^ m))

/-- Decimal digits (with a point when needed) of a positive rational whose
denominator divides a power of ten; this is the exact shortest decimal JS
produces for such numbers.  The `none` branch is unreachable for values of
JS doubles and falls back to the integer part. -/
def posDigits (q : ℚ) : List Char :=
  match minDecExp q.den with
  | some 0 => natToDigits q.num.toNat
  | some (m + 1) =>
    let n := (q * ((10 : ℚ) ^ (m + 1))).num.toNat
    natToDigits (n / 10 ^ (m + 1)) ++ '.' :: padDigits (m + 1) (n % 10 ^ (m + 1))
  | none => natToDigits q.num.toNat

/-- JS `String(number)` for finite numbers in the non-exponential range. -/
def numToString (q : ℚ) : String :=
  if q < 0 then String.mk ('-' :: posDigits (-q))
  else if q = 0 then "0"
  else String.mk (posDigits q)

/-- JS `Number.prototype.toFixed` (round half away from zero on the
magnitude, the behaviour on the row data modelled here). -/
def toFixedDigits (d : ℕ) (q : ℚ) : List Char :=
  let n := (⌊q * 10 ^ d + 1 / 2⌋).toNat
  if d = 0 then natToDigits n
  else natToDigits (n / 10 ^ d) ++ '.' :: padDigits d (n % 10 ^ d)

/-- String form of `q.toFixed(d)`. -/
def toFixed (d : ℕ) (q : ℚ) : String :=
  if q < 0 then String.mk ('-' :: toFixedDigits d (-q))
  else String.mk (toFixedDigits d q)

/-! ### The JS coercions used by the pipeline -/

/-- JS string conversion of a value. -/
def jsToString : JSVal → String
  | .num q => numToString q
  | .nan => "NaN"
  | .str s => s
  | .null => "null"
  | .undef => "undefined"

/-- JS `Number(v)` (ToNumber); `none` models NaN. -/
def toNumber : JSVal → Option ℚ
  | .num q => some q
  | .nan => none
  | .str s => numberOfString s
  | .null => some 0
  | .undef => none

/-- JS `parseInt(v)`: the argument is converted to a string first, so a
fractional number is truncated toward zero. -/
def parseIntJS : JSVal → Option ℤ
  | .num q => some (if 0 ≤ q then ⌊q⌋ else -⌊-q⌋)
  | .str s => parseIntStr s
  | _ => none

/-- JS `parseFloat(v)`: on a finite number the string round-trip is exact,
on a string it parses the leading decimal literal. -/
def parseFloatJS : JSVal → Option ℚ
  | .num q => some q
  | .str s => parseFloatStr s
  | _ => none

/-- JS global `isNaN(v)` (coerces with ToNumber). -/
def jsIsNaN (v : JSVal) : Bool := (toNumber v).isNone

/-- Embed a possibly-NaN number back into the value universe. -/
def jsNumOf : Option ℚ → JSVal
  | some q => .num q
  | none => .nan

/-- JS loose equality `==` on the modelled universe: numbers compare
numerically, a number and a string compare after ToNumber on the string,
null equals undefined, and NaN equals nothing. -/
def jsLooseEq : JSVal → JSVal → Bool
  | .num x, .num y => decide (x = y)
  | .num x, .str s =>
    match numberOfString s with
    | some y => decide (x = y)
    | none => false
  | .str s, .num y =>
    match numberOfString s with
    | some x => decide (x = y)
    | none => false
  | .str s, .str t => decide (s = t)
  | .null, .null => true
  | .null, .undef => true
  | .undef, .null => true
  | .undef, .undef => true
  | _, _ => false

/-- JS `v.includes(pat)` guarded by `v && ...` as the source always writes
it: substring test when `v` is a string (a truthy non-string `v` would
throw in JS and does not occur in pipeline data). -/
def jsIncludes (v : JSVal) (pat : String) : Bool :=
  match v with
  | .str s => containsL s.toList pat.toList
  | _ => false

/-! ### Date parsing (the ISO subset of `Date.parse`) -/

/-- Gregorian leap-year test. -/
def isLeap (y : ℕ) : Bool := (y % 4 = 0 && y % 100 ≠ 0) || y % 400 = 0

/-- Days in a month of a given year. -/
def daysInMonth (y mo : ℕ) : ℕ :=
  if mo = 2 then (if isLeap y then 29 else 28)
  else if mo = 4 || mo = 6 || mo = 9 || mo = 11 then 30
  else 31

/-- Days from the Unix epoch to a civil date (the standard era/doy
computation used by calendar libraries). -/
def daysFromCivil (y : ℤ) (mo d : ℕ) : ℤ :=
  let y2 := if mo ≤ 2 then y - 1 else y
  let era := Int.fdiv y2 400
  let yoe := y2 - era * 400
  let mp : ℤ := if mo > 2 then (mo : ℤ) - 3 else (mo : ℤ) + 9
  let doy := (153 * mp + 2) / 5 + (d : ℤ) - 1
  let doe := yoe * 365 + yoe / 4 - yoe / 100 + doy
  era * 146097 + doe - 719468

/-- Are all the characters decimal digits? -/
def allDig (cs : List Char) : Bool := cs.all isDig

/-- JS `Date.parse` on the fragment the pipeline sees: an ISO calendar
date `YYYY-MM-DD`, optionally followed by a UTC time `THH:MM:SSZ`; the
result is epoch milliseconds, `none` models NaN.  Other date formats
accepted by JS engines are not modelled. -/
def dateParse (s : String) : Option ℤ :=
  match s.toList with
  | y1 :: y2 :: y3 :: y4 :: '-' :: m1 :: m2 :: '-' :: d1 :: d2 :: rest =>
    if allDig [y1, y2, y3, y4, m1, m2, d1, d2] then
      let y := digitsVal [y1, y2, y3, y4]
      let mo := digitsVal [m1, m2]
      let da := digitsVal [d1, d2]
      let tod : Option (ℕ × ℕ × ℕ) :=
        match rest with
        | [] => some (0, 0, 0)
        | ['T', h1, h2, ':', mi1, mi2, ':', s1, s2, 'Z'] =>
          if allDig [h1, h2, mi1, mi2, s1, s2] then
            some (digitsVal [h1, h2], digitsVal [mi1, mi2], digitsVal [s1, s2])
          else none
        | _ => none
      match tod with
      | some (hh, mi, ss) =>
        if 1 ≤ mo && mo ≤ 12 && 1 ≤ da && da ≤ daysInMonth y mo
            && hh ≤ 23 && mi ≤ 59 && ss ≤ 59 then
          some (daysFromCivil (y : ℤ) mo da * 86400000
            + ((hh * 3600 + mi * 60 + ss : ℕ) : ℤ) * 1000)
        else none
      | none => none
    else none
  | _ => none

/-! ### The row model and the pipeline functions -/

/-- A raw (or normalized, or mock) row object: the named fields are exactly
the properties the source ever reads or writes on a row, an absent
property being `undef`. -/
@[ext]
structure RawRow where
  machine_id : JSVal := .undef
  temperature : JSVal := .undef
  vibration : JSVal := .undef
  timestamp : JSVal := .undef
  Machine : JSVal := .undef
  Time : JSVal := .undef
  Temp : JSVal := .undef
  Vibration : JSVal := .undef
  Avg_Temp : JSVal := .undef
  Temp_Dev : JSVal := .undef
  Alert : JSVal := .undef
  alert : JSVal := .undef
  alert_type : JSVal := .undef
deriving DecidableEq

/-- The source's `normalizeTimestamp` (part_000 lines 490-508): null and
undefined give 0, a non-NaN number is floored, then `Number(value)`, then
`Date.parse(value)` (milliseconds floored to seconds), else 0. -/
def normalizeTimestamp (value : JSVal) : ℤ :=
  match value with
  | .null => 0
  | .undef => 0
  | .num q => ⌊q⌋
  | v =>
    match toNumber v with
    | some numeric => ⌊numeric⌋
    | none =>
      match dateParse (jsToString v) with
      | some parsed => ⌊(parsed : ℚ) / 1000⌋
      | none => 0

/-- The temperature source string of an alert row:
`(row.Temp || row.temperature || '').toString().replace('K', '').trim()`. -/
def alertTempStr (row : RawRow) : String :=
  trimStr (String.mk (removeFirst 'K'
    (jsToString (jsOr (jsOr row.Temp row.temperature) (.str ""))).toList))

/-- Alert-row normalization (part_000 lines 516-528): alias resolution by
`||`, temperature read via string coercion, first-`'K'` removal and trim,
then `parseFloat`; vibration parsed when present and not NaN; labels
defaulting to `"Unknown"`. -/
def normalizeAlertRow (row : RawRow) : RawRow :=
  let tempStr := alertTempStr row
  let temp : JSVal :=
    if tempStr ≠ "" then jsNumOf (parseFloatStr tempStr) else .null
  let vib := jsOr row.Vibration row.vibration
  { machine_id := jsOr (jsOr row.Machine row.machine_id) .null
    timestamp := jsOr (jsOr row.Time row.timestamp) .null
    temperature := if temp ≠ .null && !jsIsNaN temp then temp else .null
    vibration :=
      if vib ≠ .null && vib ≠ .undef && !jsIsNaN vib then
        jsNumOf (parseFloatJS vib)
      else .null
    Alert := jsOr (jsOr row.Alert row.alert) (.str "Unknown")
    alert_type := jsOr (jsOr row.Alert row.alert_type) (.str "Unknown") }

/-- Sensor-row normalization (part_000 lines 533-538): `parseInt`/
`parseFloat` with `|| 0` fallback and `normalizeTimestamp`. -/
def normalizeSensorRow (row : RawRow) : RawRow :=
  { machine_id := .num (((parseIntJS row.machine_id).getD 0 : ℤ) : ℚ)
    temperature := .num ((parseFloatJS row.temperature).getD 0)
    vibration := .num ((parseFloatJS row.vibration).getD 0)
    timestamp := .num ((normalizeTimestamp row.timestamp : ℤ) : ℚ) }

/-- The source's `normalizeData` (part_000 lines 511-539): empty data is
returned as is; the alerts dataset (file key containing `"alerts"`) gets
alert normalization, anything else sensor normalization. -/
def normalizeData (data : List RawRow) (filepath : String) : List RawRow :=
  if data = [] then data
  else if containsSub filepath "alerts" then data.map normalizeAlertRow
  else data.map normalizeSensorRow

/-! ### Mock data generation -/

/-- One synthetic sensor row (part_000 lines 546-551); `r` is the stream of
`Math.random()` results and `k` the index of the next unconsumed draw. -/
def mockSensorRow (r : ℕ → ℚ) (k i : ℕ) : RawRow :=
  { machine_id := .num ((⌊r k * 100⌋ : ℤ) + 1 : ℚ)
    temperature := .num (295 + r (k + 1) * 30)
    vibration := .num (1200 + r (k + 2) * 1000)
    timestamp := .num (i : ℚ) }

/-- The sensor mock loop: `n` further rows starting at counter `i`. -/
def mockSensorLoop (r : ℕ → ℚ) (k i n : ℕ) : List RawRow :=
  match n with
  | 0 => []
  | n + 1 => mockSensorRow r k i :: mockSensorLoop r (k + 3) (i + 1) n

/-- One synthetic alert row (part_000 lines 556-573) together with the
next unconsumed random index: the spike draw is consumed only when
neither critical branch fires, then one draw each for `Machine` and
`Temp_Dev`. -/
def mockAlertRow (r : ℕ → ℚ) (k i : ℕ) : RawRow × ℕ :=
  let temp := 295 + r k * 30
  let vib := 1200 + r (k + 1) * 1000
  let lbl : String :=
    if temp > 320 then "🔥 CRITICAL: High Temperature"
    else if vib > 2000 then "🔥 CRITICAL: Excessive Vibration"
    else if r (k + 2) > 9 / 10 then "⚠️ WARNING: Sudden Temperature Spike"
    else "✅ Normal Operation"
  let k2 := if temp > 320 ∨ vib > 2000 then k + 2 else k + 3
  ({ Machine := .num ((⌊r k2 * 100⌋ : ℤ) + 1 : ℚ)
     Time := .num (i : ℚ)
     Temp := .str (toFixed 1 temp ++ "K")
     Vibration := .str (toFixed 0 vib)
     Avg_Temp := .str (toFixed 1 (temp - 2) ++ "K")
     Temp_Dev := .str (numToString (r (k2 + 1) * 10) ++ "K")
     Alert := .str lbl }, k2 + 2)

/-- The alert mock loop. -/
def mockAlertLoop (r : ℕ → ℚ) (k i n : ℕ) : List RawRow :=
  match n with
  | 0 => []
  | n + 1 =>
    let p := mockAlertRow r k i
    p.1 :: mockAlertLoop r p.2 (i + 1) n

/-- The source's `generateMockData` (part_000 lines 542-578), with the
`Math.random()` stream made explicit: 1000 sensor rows or 1000 alert rows
depending on the file key, an empty list otherwise. -/
def generateMockData (r : ℕ → ℚ) (filepath : String) : List RawRow :=
  if containsSub filepath "sensor_data" then mockSensorLoop r 0 1 1000
  else if containsSub filepath "alerts" then mockAlertLoop r 0 1 1000
  else []

/-! ### Statistics engine -/

/-- `n || d` on the counts used by `calculateStatistics`. -/
def natOr (n d : ℕ) : ℕ := if n = 0 then d else n

/-- The dashboard aggregate computed by `calculateStatistics`. -/
structure Stats where
  machines : ℕ
  readings : ℕ
  critical : ℕ
  warnings : ℕ
  normal : ℕ
  health : ℚ
deriving DecidableEq

/-- The source's `calculateStatistics` (part_000 lines 581-606) as a pure
function of the two loaded datasets: distinct machine count (`new Set`)
with the 100 fallback, reading count with the 10000 fallback, the three
independent substring-filter tallies, and the health score. -/
def calculateStatistics (sensorData alerts : List RawRow) : Stats :=
  let machines := natOr ((sensorData.map (fun d => d.machine_id)).dedup.length) 100
  let readings := natOr sensorData.length 10000
  let critical := (alerts.filter (fun a => a.Alert.truthy && jsIncludes a.Alert "CRITICAL")).length
  let warnings := (alerts.filter (fun a => a.Alert.truthy && jsIncludes a.Alert "WARNING")).length
  let normal := (alerts.filter (fun a => a.Alert.truthy && jsIncludes a.Alert "Normal")).length
  let totalAnomalies := critical + warnings
  let anomalyRate := ((totalAnomalies : ℚ) / (readings : ℚ)) * 100
  { machines := machines, readings := readings, critical := critical
    warnings := warnings, normal := normal
    health := max 0 (100 - anomalyRate) }

/-! ### Per-machine aggregation (showMachinesPage, part_000 lines 1213-1262)

JS numbers that may be NaN are carried as `Option ℚ` with `none` for NaN;
every arithmetic operation, `Math.max`, `Math.min` and `Math.round`
propagate NaN exactly as in JS. -/

/-- NaN-propagating addition. -/
def addO : Option ℚ → Option ℚ → Option ℚ
  | some a, some b => some (a + b)
  | _, _ => none

/-- NaN-propagating subtraction. -/
def subO : Option ℚ → Option ℚ → Option ℚ
  | some a, some b => some (a - b)
  | _, _ => none

/-- NaN-propagating multiplication. -/
def mulO : Option ℚ → Option ℚ → Option ℚ
  | some a, some b => some (a * b)
  | _, _ => none

/-- NaN-propagating division; a zero divisor (which would give an infinity
in JS) does not occur on the guarded paths and is mapped to `none`. -/
def divO : Option ℚ → Option ℚ → Option ℚ
  | some a, some b => if b = 0 then none else some (a / b)
  | _, _ => none

/-- NaN-propagating absolute value (`Math.abs`). -/
def absO : Option ℚ → Option ℚ
  | some a => some |a|
  | none => none

/-- `Math.max` (NaN-propagating). -/
def maxO : Option ℚ → Option ℚ → Option ℚ
  | some a, some b => some (max a b)
  | _, _ => none

/-- `Math.min` (NaN-propagating). -/
def minO : Option ℚ → Option ℚ → Option ℚ
  | some a, some b => some (min a b)
  | _, _ => none

/-- `Math.round` (round half toward positive infinity), NaN-propagating. -/
def roundO : Option ℚ → Option ℚ
  | some a => some ((⌊a + 1 / 2⌋ : ℤ) : ℚ)
  | none => none

/-- JS truthiness of a possibly-NaN number (0 and NaN are falsy). -/
def truthyO : Option ℚ → Bool
  | some q => decide (q ≠ 0)
  | none => false

/-- The per-machine record built by `showMachinesPage`: during the first
pass `avgTemp`/`avgVibration` hold running sums, the second pass replaces
them by averages and fills the alert counts, status and scores. -/
structure MachineStat where
  id : JSVal
  readings : ℕ
  avgTemp : Option ℚ
  avgVibration : Option ℚ
  lastTemp : Option ℚ
  lastVibration : Option ℚ
  alerts : ℕ
  status : String
  healthScore : Option ℚ
  riskScore : Option ℚ
deriving DecidableEq

/-- The fresh map entry of the first pass (part_000 lines 1217-1228). -/
def initStat (id : JSVal) : MachineStat :=
  { id := id, readings := 0, avgTemp := some 0, avgVibration := some 0
    lastTemp := none, lastVibration := none, alerts := 0
    status := "normal", healthScore := some 0, riskScore := some 0 }

/-- The per-reading update of the first pass (part_000 lines 1230-1235). -/
def updStat (reading : RawRow) (m : MachineStat) : MachineStat :=
  { m with
    readings := m.readings + 1
    avgTemp := addO m.avgTemp (parseFloatJS reading.temperature)
    avgVibration := addO m.avgVibration (parseFloatJS reading.vibration)
    lastTemp := parseFloatJS reading.temperature
    lastVibration := parseFloatJS reading.vibration }

/-- One step of the first pass over the readings: create the entry on
first sight of a machine id (JS `Map` keeps insertion order), then
accumulate. -/
def firstPassStep (acc : List MachineStat) (reading : RawRow) : List MachineStat :=
  if acc.any (fun m => decide (m.id = reading.machine_id)) then
    acc.map (fun m => if m.id = reading.machine_id then updStat reading m else m)
  else acc ++ [updStat reading (initStat reading.machine_id)]

/-- The first pass over the readings array in input order. -/
def firstPass (sensorData : List RawRow) : List MachineStat :=
  sensorData.foldl firstPassStep []

/-- The alert filter of the second pass: loose-equality match of
`a.machine_id ?? a.Machine` against the map key. -/
def alertMatches (id : JSVal) (a : RawRow) : Bool :=
  jsLooseEq (jsCoalesce a.machine_id a.Machine) id

/-- The per-machine critical-alert tally of the second pass. -/
def criticalAlertsFor (alerts : List RawRow) (id : JSVal) : ℕ :=
  (alerts.filter (fun a =>
    alertMatches id a && a.Alert.truthy && jsIncludes a.Alert "CRITICAL")).length

/-- The per-machine warning-alert tally of the second pass. -/
def warningAlertsFor (alerts : List RawRow) (id : JSVal) : ℕ :=
  (alerts.filter (fun a =>
    alertMatches id a && a.Alert.truthy && jsIncludes a.Alert "WARNING")).length

/-- The second pass of `showMachinesPage` (part_000 lines 1239-1262):
averages, per-machine alert tallies, status, health score (deviation
terms guarded by truthiness of the averages) and clamped risk score. -/
def finishStat (alerts : List RawRow) (m : MachineStat) : MachineStat :=
  let avgT := divO m.avgTemp (some (m.readings : ℚ))
  let avgV := divO m.avgVibration (some (m.readings : ℚ))
  let alertCount := (alerts.filter (alertMatches m.id)).length
  let criticalAlerts := criticalAlertsFor alerts m.id
  let warningAlerts := warningAlertsFor alerts m.id
  let st := if criticalAlerts > 0 then "critical"
    else if warningAlerts > 0 then "warning" else "normal"
  let tempDevPct : Option ℚ :=
    if truthyO avgT then mulO (divO (absO (subO m.lastTemp avgT)) avgT) (some 100)
    else some 0
  let vibDevPct : Option ℚ :=
    if truthyO avgV then mulO (divO (absO (subO m.lastVibration avgV)) avgV) (some 100)
    else some 0
  let hs := maxO (some 0) (subO (some 100) (addO tempDevPct vibDevPct))
  let rs := minO (some 100) (roundO (addO (subO (some 100) hs)
    (some ((criticalAlerts : ℚ) * 5 + (warningAlerts : ℚ) * 2))))
  { m with
    avgTemp := avgT
    avgVibration := avgV
    alerts := alertCount
    status := st
    healthScore := hs
    riskScore := rs }

/-- The full per-machine aggregation of `showMachinesPage` on the current
datasets (before the display-only `slice(0, 20)`). -/
def machineStatsList (sensorData alerts : List RawRow) : List MachineStat :=
  (firstPass sensorData).map (finishStat alerts)

/-! ### Shape predicates and concrete rows used by the verification -/

/-- The field-type invariant of a normalized sensor reading (and of a mock
sensor row): all four canonical fields are finite numbers. -/
def numericRow (r : RawRow) : Bool :=
  isNum r.machine_id && isNum r.temperature && isNum r.vibration && isNum r.timestamp

/-- The raw-schema shape of a generated mock alert row: numeric `Machine`
and `Time`, string `Temp`/`Vibration`/`Avg_Temp`/`Temp_Dev`, and a
non-empty string `Alert` label. -/
def mockAlertShape (r : RawRow) : Bool :=
  isNum r.Machine && isNum r.Time && isStr r.Temp && isStr r.Vibration
    && isStr r.Avg_Temp && isStr r.Temp_Dev && isStr r.Alert && r.Alert.truthy

/-- The ordered timestamp fallback exactly as the specification words it:
null/undefined give 0, a finite number is floored, a string parsing as a
finite number is floored, a string parsing as a calendar date gives floored
epoch seconds, anything else gives 0. -/
def normalizeTimestampSpec (v : JSVal) : ℤ :=
  match v with
  | .null => 0
  | .undef => 0
  | .num q => ⌊q⌋
  | .nan => 0
  | .str s =>
    match numberOfString s with
    | some q => ⌊q⌋
    | none =>
      match dateParse s with
      | some ms => ⌊(ms : ℚ) / 1000⌋
      | none => 0

/-- The temperature-stripping rule exactly as the claim words it: remove a
trailing `'K'` (only at the end of the string) and surrounding whitespace.
The source instead removes the first `'K'` occurring anywhere. -/
def claimStripK (s : String) : String :=
  let cs :=
    match s.toList.reverse with
    | 'K' :: rest => rest.reverse
    | _ => s.toList
  trimStr (String.mk cs)

/-- The raw alert row of the end-to-end example in the specification. -/
def rawAlertEx : RawRow :=
  { Machine := .num 1
    Time := .num 5
    Temp := .str "330.0K"
    Vibration := .str "2100"
    Alert := .str "🔥 CRITICAL: High Temperature" }

/-- The raw sensor row of the end-to-end example in the specification. -/
def rawSensorEx : RawRow :=
  { machine_id := .num 1
    temperature := .num 330
    vibration := .num 2100
    timestamp := .num 5 }

/-- The loaded (normalized) alerts dataset of the end-to-end example. -/
def alertsEx : List RawRow := normalizeData [rawAlertEx] "alerts"

/-- The loaded (normalized) sensor dataset of the end-to-end example. -/
def sensorEx : List RawRow := normalizeData [rawSensorEx] "sensor_data"

/-- A sensor row with the given (possibly negative) temperature, used to
probe the per-machine risk score. -/
def plainReading (t : ℚ) : RawRow :=
  { machine_id := .num 1, temperature := .num t, vibration := .num 0
    timestamp := .num 1 }

/-- The per-machine record the aggregation computes for the example
sensor row with no alerts. -/
def statEx : MachineStat :=
  { id := .num 1, readings := 1, avgTemp := some 330, avgVibration := some 2100
    lastTemp := some 330, lastVibration := some 2100, alerts := 0
    status := "normal", healthScore := some 100, riskScore := some 0 }

/-- A record of canonical alert shape: the six fields an alert
normalization output carries, everything else absent. -/
def canonRow (m ts t vb A at2 : JSVal) : RawRow :=
  { machine_id := m
    timestamp := ts
    temperature := t
    vibration := vb
    Alert := A
    alert_type := at2 }

/-- A raw sensor row whose every field is non-numeric garbage. -/
def garbageRow : RawRow :=
  { machine_id := .str "abc"
    temperature := .str "x"
    vibration := .undef
    timestamp := .str "junk" }

/-! ## Supporting lemmas -/

/-- The reading count produced by `calculateStatistics` is positive: a
non-empty readings array contributes its length, an empty one the 10000
placeholder. -/
lemma readings_pos (sd al : List RawRow) : 0 < (calculateStatistics sd al).readings := by
  show 0 < natOr sd.length 10000
  unfold natOr
  split <;> omega

/-- A value recognised by `isNum` is a number. -/
lemma isNum_exists {v : JSVal} (h : isNum v = true) : ∃ q, v = .num q := by
  cases v <;> simp [isNum] at h ⊢

/-- The invariant of a first-pass map entry: at least one reading
accumulated and all four running metrics finite. -/
def entryOK (m : MachineStat) : Prop :=
  1 ≤ m.readings ∧ m.avgTemp.isSome = true ∧ m.avgVibration.isSome = true
    ∧ m.lastTemp.isSome = true ∧ m.lastVibration.isSome = true

/-- Accumulating a numeric reading preserves (or establishes) the entry
invariant, whatever the previous counters were. -/
lemma updStat_ok {r : RawRow} (m : MachineStat) (hr : numericRow r = true)
    (h1 : m.avgTemp.isSome = true) (h2 : m.avgVibration.isSome = true) :
    entryOK (updStat r m) := by
  have ht : isNum r.temperature = true := by
    simp only [numericRow, Bool.and_eq_true] at hr
    exact hr.1.1.2
  have hv : isNum r.vibration = true := by
    simp only [numericRow, Bool.and_eq_true] at hr
    exact hr.1.2
  obtain ⟨qt, hqt⟩ := isNum_exists ht
  obtain ⟨qv, hqv⟩ := isNum_exists hv
  obtain ⟨a, ha⟩ := Option.isSome_iff_exists.mp h1
  obtain ⟨b, hb⟩ := Option.isSome_iff_exists.mp h2
  refine ⟨by simp [updStat], ?_, ?_, ?_, ?_⟩ <;>
    simp [updStat, hqt, hqv, ha, hb, parseFloatJS, addO]

/-- One step of the first pass preserves the entry invariant on every
accumulator entry. -/
lemma firstPassStep_entry {acc : List MachineStat} {r : RawRow}
    (hr : numericRow r = true) (hacc : ∀ m ∈ acc, entryOK m) :
    ∀ m ∈ firstPassStep acc r, entryOK m := by
  intro m2 hm2
  unfold firstPassStep at hm2
  split at hm2
  · obtain ⟨m0, hm0, rfl⟩ := List.mem_map.mp hm2
    by_cases hid : m0.id = r.machine_id
    · rw [if_pos hid]
      exact updStat_ok m0 hr (hacc m0 hm0).2.1 (hacc m0 hm0).2.2.1
    · rw [if_neg hid]
      exact hacc m0 hm0
  · rcases List.mem_append.mp hm2 with h2 | h2
    · exact hacc _ h2
    · have := List.mem_singleton.mp h2
      subst this
      exact updStat_ok _ hr (by simp [initStat]) (by simp [initStat])

/-- Every entry of the first pass over numeric readings satisfies the
entry invariant. -/
lemma firstPass_entry (sd : List RawRow) (hsd : ∀ r ∈ sd, numericRow r = true) :
    ∀ m ∈ firstPass sd, entryOK m := by
  suffices h : ∀ acc, (∀ r ∈ sd, numericRow r = true) → (∀ m ∈ acc, entryOK m) →
      ∀ m ∈ sd.foldl firstPassStep acc, entryOK m from h [] hsd (by simp)
  clear hsd
  induction sd with
  | nil => intro acc _ hacc m hm; exact hacc m hm
  | cons r sd ih =>
    intro acc hsd hacc m hm
    exact ih (firstPassStep acc r)
      (fun x hx => hsd x (List.mem_cons_of_mem _ hx))
      (firstPassStep_entry (hsd r (by simp)) hacc) m hm

/-- The deviation-percentage computation of the second pass on finite
inputs: the truthiness guard turns a zero average into a zero deviation
term. -/
lemma devPct_eq (l a : ℚ) :
    (if truthyO (some a) = true then
      mulO (divO (absO (some (l - a))) (some a)) (some 100)
     else some 0) = some (if a = 0 then 0 else |l - a| / a * 100) := by
  by_cases h : a = 0 <;> simp [truthyO, h, absO, divO, mulO]

lemma mockSensorLoop_length (r : ℕ → ℚ) (k i n : ℕ) :
    (mockSensorLoop r k i n).length = n := by
  induction n generalizing k i with
  | zero => rfl
  | succ n ih => simp [mockSensorLoop, ih]

/-- The alert mock loop emits exactly as many rows as requested. -/
lemma mockAlertLoop_length (r : ℕ → ℚ) (k i n : ℕ) :
    (mockAlertLoop r k i n).length = n := by
  induction n generalizing k i with
  | zero => rfl
  | succ n ih => simp [mockAlertLoop, ih]

/-- Every synthetic sensor row has four finite numeric fields. -/
lemma mockSensorLoop_shape (r : ℕ → ℚ) (k i n : ℕ) :
    ∀ row ∈ mockSensorLoop r k i n, numericRow row = true := by
  induction n generalizing k i with
  | zero => simp [mockSensorLoop]
  | succ n ih =>
    intro row hrow
    rcases (by simpa [mockSensorLoop] using hrow :
        row = mockSensorRow r k i ∨ row ∈ mockSensorLoop r (k + 3) (i + 1) n) with h | h
    · subst h; rfl
    · exact ih _ _ _ h

/-- A single synthetic alert row follows the raw alert schema. -/
lemma mockAlertRow_shape (r : ℕ → ℚ) (k i : ℕ) :
    mockAlertShape (mockAlertRow r k i).1 = true := by
  simp only [mockAlertRow, mockAlertShape, isNum, isStr, JSVal.truthy,
    Bool.and_eq_true, decide_eq_true_eq]
  norm_num
  split_ifs <;> simp

/-- Every synthetic alert row follows the raw alert schema. -/
lemma mockAlertLoop_shape (r : ℕ → ℚ) (k i n : ℕ) :
    ∀ row ∈ mockAlertLoop r k i n, mockAlertShape row = true := by
  induction n generalizing k i with
  | zero => simp [mockAlertLoop]
  | succ n ih =>
    intro row hrow
    rcases (by simpa [mockAlertLoop] using hrow :
        row = (mockAlertRow r k i).1 ∨
          row ∈ mockAlertLoop r (mockAlertRow r k i).2 (i + 1) n) with h | h
    · subst h; exact mockAlertRow_shape r k i
    · exact ih _ _ _ h

/-! ### Decimal rendering and parsing round-trip -/

/-- The digit character of a value below ten evaluates back to it. -/
lemma dval_digitChar {d : ℕ} (h : d < 10) : dval (digitChar d) = d := by
  interval_cases d <;> decide

/-- The digit character of a value below ten is a digit. -/
lemma isDig_digitChar {d : ℕ} (h : d < 10) : isDig (digitChar d) = true := by
  interval_cases d <;> decide

/-- A digit character is not whitespace. -/
lemma isDig_not_ws {c : Char} (h : isDig c = true) : isWs c = false := by
  by_contra hw
  have hw2 : isWs c = true := by
    cases hws : isWs c
    · exact absurd hws hw
    · rfl
  simp only [isWs, Bool.or_eq_true, decide_eq_true_eq] at hw2
  rcases hw2 with ((h1 | h1) | h1) | h1 <;> subst h1 <;> simp [isDig] at h

/-- Folding digits from an arbitrary initial value. -/
lemma digitsVal_foldl_init (ds : List Char) :
    ∀ a : ℕ, ds.foldl (fun x c => 10 * x + dval c) a = a * 10 ^ ds.length + digitsVal ds := by
  induction ds with
  | nil => intro a; simp [digitsVal]
  | cons c ds ih =>
    intro a
    show ds.foldl _ (10 * a + dval c) = _
    rw [ih (10 * a + dval c)]
    have h0 : digitsVal (c :: ds) = dval c * 10 ^ ds.length + digitsVal ds := by
      show ds.foldl _ (10 * 0 + dval c) = _
      rw [ih (10 * 0 + dval c)]
      ring
    rw [h0]
    simp [List.length_cons, pow_succ]
    ring

/-- Value of a digit string extended by one digit at the end. -/
lemma digitsVal_append_singleton (ds : List Char) (c : Char) :
    digitsVal (ds ++ [c]) = 10 * digitsVal ds + dval c := by
  unfold digitsVal
  rw [List.foldl_append]
  rfl

/-- Value of a digit string with a leading digit. -/
lemma digitsVal_cons (c : Char) (ds : List Char) :
    digitsVal (c :: ds) = dval c * 10 ^ ds.length + digitsVal ds := by
  show ds.foldl _ (10 * 0 + dval c) = _
  rw [digitsVal_foldl_init ds (10 * 0 + dval c)]
  ring

/-- All characters produced by the fuelled digit extraction are digits. -/
lemma natDigitsAux_digits : ∀ fuel n : ℕ, ∀ c ∈ natDigitsAux fuel n, isDig c = true := by
  intro fuel
  induction fuel with
  | zero => intro n c hc; simp [natDigitsAux] at hc
  | succ fuel ih =>
    intro n c hc
    match n with
    | 0 => simp [natDigitsAux] at hc
    | k + 1 =>
      simp only [natDigitsAux, List.mem_cons] at hc
      rcases hc with hc | hc
      · subst hc; exact isDig_digitChar (Nat.mod_lt _ (by norm_num))
      · exact ih _ c hc

/-- With enough fuel, the reversed digit extraction evaluates back to the
number. -/
lemma natDigitsAux_val : ∀ fuel n : ℕ, n ≤ fuel →
    digitsVal (natDigitsAux fuel n).reverse = n := by
  intro fuel
  induction fuel with
  | zero =>
    intro n hn
    interval_cases n
    simp [natDigitsAux, digitsVal]
  | succ fuel ih =>
    intro n hn
    match n with
    | 0 => simp [natDigitsAux, digitsVal]
    | k + 1 =>
      have hq : (k + 1) / 10 ≤ fuel := by
        have h1 : (k + 1) / 10 < k + 1 := Nat.div_lt_self (Nat.succ_pos k) (by norm_num)
        omega
      simp only [natDigitsAux, List.reverse_cons]
      rw [digitsVal_append_singleton, ih _ hq,
        dval_digitChar (Nat.mod_lt _ (by norm_num))]
      omega

/-- The digit extraction of a value below `10 ^ m` has at most `m`
digits. -/
lemma natDigitsAux_length : ∀ fuel n m : ℕ, n < 10 ^ m →
    (natDigitsAux fuel n).length ≤ m := by
  intro fuel
  induction fuel with
  | zero => intro n m _; simp [natDigitsAux]
  | succ fuel ih =>
    intro n m hm
    match n with
    | 0 => simp [natDigitsAux]
    | k + 1 =>
      match m with
      | 0 => simp at hm
      | m + 1 =>
        have hq : (k + 1) / 10 < 10 ^ m := by
          rw [Nat.div_lt_iff_lt_mul (by norm_num : (0 : ℕ) < 10)]
          calc k + 1 < 10 ^ (m + 1) := hm
          _ = 10 ^ m * 10 := by ring
        simpa [natDigitsAux] using ih _ m hq

/-- The digit extraction of a positive number is non-empty. -/
lemma natDigitsAux_ne_nil {fuel k : ℕ} (h : k + 1 ≤ fuel) :
    natDigitsAux fuel (k + 1) ≠ [] := by
  match fuel with
  | 0 => omega
  | fuel + 1 => simp [natDigitsAux]

/-- All characters of `natToDigits` are digits. -/
lemma natToDigits_digits (n : ℕ) : ∀ c ∈ natToDigits n, isDig c = true := by
  intro c hc
  unfold natToDigits at hc
  split at hc
  · simp at hc; subst hc; decide
  · exact natDigitsAux_digits n n c (List.mem_reverse.mp hc)

/-- `natToDigits` evaluates back to the number. -/
lemma digitsVal_natToDigits (n : ℕ) : digitsVal (natToDigits n) = n := by
  unfold natToDigits
  split
  · rename_i h
    subst h
    decide
  · exact natDigitsAux_val n n le_rfl

/-- `natToDigits` is never empty. -/
lemma natToDigits_ne_nil (n : ℕ) : natToDigits n ≠ [] := by
  unfold natToDigits
  split
  · simp
  · rename_i h
    match n, h with
    | k + 1, _ =>
      simp only [ne_eq, List.reverse_eq_nil_iff]
      exact natDigitsAux_ne_nil le_rfl

/-- Digit-count bound for `natToDigits` below `10 ^ m`, `m ≥ 1`. -/
lemma natToDigits_length_le {n m : ℕ} (hm : 1 ≤ m) (h : n < 10 ^ m) :
    (natToDigits n).length ≤ m := by
  unfold natToDigits
  split
  · simpa using hm
  · simpa using natDigitsAux_length n n m h

/-- All characters of a padded digit block are digits. -/
lemma padDigits_digits (w n : ℕ) : ∀ c ∈ padDigits w n, isDig c = true := by
  intro c hc
  unfold padDigits at hc
  rcases List.mem_append.mp hc with h | h
  · have := List.eq_of_mem_replicate h
    subst this
    decide
  · exact natToDigits_digits n c h

/-- Leading zeros do not change the value of a digit string. -/
lemma digitsVal_replicate_append (k : ℕ) (ds : List Char) :
    digitsVal (List.replicate k '0' ++ ds) = digitsVal ds := by
  unfold digitsVal
  rw [List.foldl_append]
  congr 1
  induction k with
  | zero => rfl
  | succ k ih => simpa [List.replicate_succ, dval] using ih

/-- A padded digit block evaluates back to the value. -/
lemma digitsVal_padDigits (w n : ℕ) : digitsVal (padDigits w n) = n := by
  unfold padDigits
  rw [digitsVal_replicate_append, digitsVal_natToDigits]

/-- A padded digit block of a value below `10 ^ w`, `w ≥ 1`, has width
exactly `w`. -/
lemma padDigits_length {w n : ℕ} (hw : 1 ≤ w) (h : n < 10 ^ w) :
    (padDigits w n).length = w := by
  unfold padDigits
  rw [List.length_append, List.length_replicate]
  have := natToDigits_length_le hw h
  omega

/-- Parsing a digit run followed by a non-digit (or nothing) returns its
value, its width and the rest. -/
lemma parseDigits_spec : ∀ ds rest : List Char, (∀ c ∈ ds, isDig c = true) →
    (∀ c, rest.head? = some c → isDig c = false) →
    parseDigits (ds ++ rest) = (digitsVal ds, ds.length, rest) := by
  intro ds
  induction ds with
  | nil =>
    intro rest _ hrest
    match rest with
    | [] => rfl
    | c :: t =>
      have hc := hrest c rfl
      simp [parseDigits, hc]
      rfl
  | cons c ds ih =>
    intro rest hds hrest
    have hc : isDig c = true := hds c (by simp)
    simp only [List.cons_append, parseDigits, hc, if_true, List.append_eq]
    rw [ih rest (fun x hx => hds x (by simp [hx])) hrest]
    simp [digitsVal_cons]

/-- A pure digit run parses as the corresponding integer literal. -/
lemma parseUnsignedFloat_digits (ds : List Char) (hds : ∀ c ∈ ds, isDig c = true)
    (hne : ds ≠ []) :
    parseUnsignedFloat ds = some ((digitsVal ds : ℚ), []) := by
  have h := parseDigits_spec ds [] hds (by intro c hc; simp at hc)
  rw [List.append_nil] at h
  have hlen : ds.length ≠ 0 := by simpa using hne
  unfold parseUnsignedFloat
  rw [h]
  simp [hlen]

/-- A digit run, a point and a second digit run parse as the
corresponding decimal literal. -/
lemma parseUnsignedFloat_point (ds fs : List Char) (hds : ∀ c ∈ ds, isDig c = true)
    (hfs : ∀ c ∈ fs, isDig c = true) (hne : ds ≠ []) :
    parseUnsignedFloat (ds ++ '.' :: fs)
      = some ((digitsVal ds : ℚ) + (digitsVal fs : ℚ) / 10 ^ fs.length, []) := by
  have h1 := parseDigits_spec ds ('.' :: fs) hds
    (by intro c hc; simp at hc; subst hc; decide)
  have h2 := parseDigits_spec fs [] hfs (by intro c hc; simp at hc)
  rw [List.append_nil] at h2
  have hlen : ds.length ≠ 0 := by simpa using hne
  unfold parseUnsignedFloat
  rw [h1]
  simp [h2, hlen]

/-- A found minimal exponent certifies divisibility. -/
lemma minDecExp_dvd {d m : ℕ} (h : minDecExp d = some m) : d ∣ 10 ^ m := by
  have := List.find?_some h
  simpa using this

/-- The rendering of a positive terminating rational parses back to it. -/
lemma posDigits_roundtrip (q : ℚ) (hq : 0 < q) (hm : (minDecExp q.den).isSome) :
    parseUnsignedFloat (posDigits q) = some (q, []) := by
  obtain ⟨m, hfind⟩ := Option.isSome_iff_exists.mp hm
  have hdvd : q.den ∣ 10 ^ m := minDecExp_dvd hfind
  have hnum : 0 < q.num := Rat.num_pos.mpr hq
  match m with
  | 0 =>
    have hden : q.den = 1 := Nat.dvd_one.mp (by simpa using hdvd)
    have hqz : ((q.num : ℤ) : ℚ) = q := by
      have := Rat.num_div_den q
      rw [hden] at this
      simpa using this
    unfold posDigits
    rw [hfind, parseUnsignedFloat_digits _ (natToDigits_digits _) (natToDigits_ne_nil _),
      digitsVal_natToDigits]
    have : ((q.num.toNat : ℕ) : ℚ) = q := by
      rw [← hqz]
      exact_mod_cast Int.toNat_of_nonneg hnum.le
    rw [this]
  | m + 1 =>
    obtain ⟨c, hc⟩ := hdvd
    have hc0 : 0 < c := by
      rcases Nat.eq_zero_or_pos c with h0 | h0
      · rw [h0, mul_zero] at hc
        exact absurd hc (by positivity)
      · exact h0
    have hdenq : ((q.den : ℚ)) ≠ 0 := by
      exact_mod_cast q.den_nz
    have h10 : ((10 : ℚ)) ^ (m + 1) = ((q.den : ℚ)) * (c : ℚ) := by
      have h2 : ((10 ^ (m + 1) : ℕ) : ℚ) = ((q.den * c : ℕ) : ℚ) := by
        exact_mod_cast congrArg (fun x : ℕ => (x : ℚ)) hc
      push_cast at h2
      simpa using h2
    have hkey : q * ((q.den : ℚ)) = ((q.num : ℤ) : ℚ) := by
      have h := Rat.num_div_den q
      rw [div_eq_iff hdenq] at h
      linarith [h]
    have hQint : q * ((10 : ℚ)) ^ (m + 1) = ((q.num * (c : ℤ) : ℤ) : ℚ) := by
      rw [h10]
      push_cast
      calc q * (((q.den : ℚ)) * ((c : ℕ) : ℚ))
          = (q * ((q.den : ℚ))) * ((c : ℕ) : ℚ) := by ring
        _ = ((q.num : ℤ) : ℚ) * ((c : ℕ) : ℚ) := by rw [hkey]
    have hNnn : (0 : ℤ) ≤ q.num * (c : ℤ) :=
      mul_nonneg hnum.le (by exact_mod_cast hc0.le)
    have hNcast : (((q * ((10 : ℚ)) ^ (m + 1)).num.toNat : ℕ) : ℚ)
        = q * ((10 : ℚ)) ^ (m + 1) := by
      rw [hQint, Rat.intCast_num]
      exact_mod_cast Int.toNat_of_nonneg hNnn
    unfold posDigits
    rw [hfind]
    set N : ℕ := (q * ((10 : ℚ)) ^ (m + 1)).num.toNat with hN
    set P : ℕ := 10 ^ (m + 1) with hP
    have hPpos : 0 < P := by rw [hP]; positivity
    have hmod : N % P < P := Nat.mod_lt _ hPpos
    have hmod10 : N % P < 10 ^ (m + 1) := by rwa [← hP]
    rw [parseUnsignedFloat_point _ _ (natToDigits_digits _) (padDigits_digits _ _)
      (natToDigits_ne_nil _)]
    rw [digitsVal_natToDigits, digitsVal_padDigits,
      padDigits_length (by omega) hmod10]
    have hPQ : ((10 : ℚ)) ^ (m + 1) ≠ 0 := by positivity
    have hsplit : ((N / P : ℕ) : ℚ) * ((10 : ℚ)) ^ (m + 1) + ((N % P : ℕ) : ℚ)
        = (N : ℚ) := by
      have h3n : P * (N / P) + N % P = N := Nat.div_add_mod N P
      have h3 : ((P : ℕ) : ℚ) * ((N / P : ℕ) : ℚ) + ((N % P : ℕ) : ℚ) = (N : ℚ) := by
        exact_mod_cast h3n
      have hPc : ((P : ℕ) : ℚ) = ((10 : ℚ)) ^ (m + 1) := by
        rw [hP]
        push_cast
        ring
      rw [hPc] at h3
      linarith
    have hfrac : ((N % P : ℕ) : ℚ) / ((10 : ℚ)) ^ (m + 1) = q - ((N / P : ℕ) : ℚ) := by
      rw [div_eq_iff hPQ]
      calc ((N % P : ℕ) : ℚ) = (N : ℚ) - ((N / P : ℕ) : ℚ) * ((10 : ℚ)) ^ (m + 1) := by
            linarith [hsplit]
        _ = q * ((10 : ℚ)) ^ (m + 1) - ((N / P : ℕ) : ℚ) * ((10 : ℚ)) ^ (m + 1) := by
            rw [hNcast]
        _ = (q - ((N / P : ℕ) : ℚ)) * ((10 : ℚ)) ^ (m + 1) := by ring
    have hval : ((N / P : ℕ) : ℚ) + ((N % P : ℕ) : ℚ) / ((10 : ℚ)) ^ (m + 1) = q := by
      rw [hfrac]
      ring
    rw [hval]

/-- Every character of a positive rendering is a digit or the point. -/
lemma posDigits_chars (q : ℚ) : ∀ c ∈ posDigits q, isDig c = true ∨ c = '.' := by
  intro c hc
  unfold posDigits at hc
  split at hc
  · exact Or.inl (natToDigits_digits _ c hc)
  · rcases List.mem_append.mp hc with h | h
    · exact Or.inl (natToDigits_digits _ c h)
    · rcases List.mem_cons.mp h with h | h
      · exact Or.inr h
      · exact Or.inl (padDigits_digits _ _ c h)
  · exact Or.inl (natToDigits_digits _ c hc)

/-- A positive rendering is never empty. -/
lemma posDigits_ne_nil (q : ℚ) : posDigits q ≠ [] := by
  unfold posDigits
  split
  · exact natToDigits_ne_nil _
  · intro h
    exact natToDigits_ne_nil _ (List.append_eq_nil.mp h).1
  · exact natToDigits_ne_nil _

/-- Character list of a constructed string. -/
lemma toList_mk (l : List Char) : (String.mk l).toList = l := rfl

/-- A list whose head is not whitespace survives the whitespace skip. -/
lemma dropWhile_isWs_eq_self {l : List Char}
    (h : ∀ c, l.head? = some c → isWs c = false) : l.dropWhile isWs = l := by
  cases l with
  | nil => rfl
  | cons c t => simp [List.dropWhile_cons, h c rfl]

/-- A literal starting with a digit has no sign to consume. -/
lemma parseSignedFloat_head_dig {c : Char} {t : List Char} (h : isDig c = true) :
    parseSignedFloat (c :: t) = parseUnsignedFloat (c :: t) := by
  have h1 : c ≠ '-' := by rintro rfl; simp [isDig] at h
  have h2 : c ≠ '+' := by rintro rfl; simp [isDig] at h
  unfold parseSignedFloat
  split <;> simp_all

/-- Only powers of 2 and 5 divide a power of ten, so a divisor of any
power of ten divides the power of ten with its own exponent. -/
lemma dvd_ten_pow_self {d k : ℕ} (hd : d ≠ 0) (h : d ∣ 10 ^ k) : d ∣ 10 ^ d := by
  have h2 : d ∣ 2 ^ k * 5 ^ k := by
    have h25 : (10 : ℕ) ^ k = 2 ^ k * 5 ^ k := by
      rw [show (10 : ℕ) = 2 * 5 by norm_num, mul_pow]
    rwa [h25] at h
  obtain ⟨d1, d2, hd1, hd2, rfl⟩ := exists_dvd_and_dvd_of_dvd_mul h2
  obtain ⟨a, ha, rfl⟩ := (Nat.dvd_prime_pow Nat.prime_two).mp hd1
  obtain ⟨b, hb, rfl⟩ := (Nat.dvd_prime_pow Nat.prime_five).mp hd2
  have h2a : 2 ^ a ≤ 2 ^ a * 5 ^ b :=
    Nat.le_mul_of_pos_right _ (pow_pos (by norm_num) b)
  have h5b : 5 ^ b ≤ 2 ^ a * 5 ^ b :=
    Nat.le_mul_of_pos_left _ (pow_pos (by norm_num) a)
  have ha2 : a ≤ 2 ^ a * 5 ^ b := le_trans (Nat.lt_two_pow a).le h2a
  have hb2 : b ≤ 2 ^ a * 5 ^ b :=
    le_trans (Nat.lt_pow_self (by norm_num) b).le h5b
  have h25 : (10 : ℕ) ^ (2 ^ a * 5 ^ b) = 2 ^ (2 ^ a * 5 ^ b) * 5 ^ (2 ^ a * 5 ^ b) := by
    rw [show (10 : ℕ) = 2 * 5 by norm_num, mul_pow]
  rw [h25]
  exact mul_dvd_mul (pow_dvd_pow 2 ha2) (pow_dvd_pow 5 hb2)

/-- A denominator dividing some power of ten admits a minimal decimal
exponent. -/
lemma minDecExp_isSome_of_dvd {d k : ℕ} (hd : d ≠ 0) (h : d ∣ 10 ^ k) :
    (minDecExp d).isSome = true := by
  unfold minDecExp
  refine List.find?_isSome.mpr ⟨d, by simp, ?_⟩
  simpa using dvd_ten_pow_self hd h

/-- A rational equal to a fraction of naturals has denominator dividing
the divisor. -/
lemma den_dvd_of_eq_div {q : ℚ} {a b : ℕ} (hb : b ≠ 0)
    (h : q = (a : ℚ) / (b : ℚ)) : q.den ∣ b := by
  have h2 : q = Rat.divInt (a : ℤ) (b : ℤ) := by
    rw [Rat.divInt_eq_div]
    push_cast
    exact h
  have h3 := Rat.den_dvd (a : ℤ) (b : ℤ)
  rw [← h2] at h3
  exact_mod_cast h3

/-- Every parse result of the unsigned float parser has a denominator
dividing a power of ten. -/
lemma parseUnsignedFloat_den : ∀ (cs : List Char) (q : ℚ) (rest : List Char),
    parseUnsignedFloat cs = some (q, rest) → ∃ k : ℕ, q.den ∣ 10 ^ k := by
  intro cs q rest h
  unfold parseUnsignedFloat at h
  simp only [] at h
  split at h
  · rename_i cs2 heq
    split at h
    · exact absurd h (by simp)
    · simp only [Option.some.injEq, Prod.mk.injEq] at h
      obtain ⟨hq, -⟩ := h
      refine ⟨(parseDigits cs2).2.1, ?_⟩
      refine den_dvd_of_eq_div (a := (parseDigits cs).1 * 10 ^ (parseDigits cs2).2.1
        + (parseDigits cs2).1) (by positivity) ?_
      rw [← hq]
      push_cast
      have hne : ((10 : ℚ)) ^ (parseDigits cs2).2.1 ≠ 0 := by positivity
      field_simp
  · split at h
    · exact absurd h (by simp)
    · simp only [Option.some.injEq, Prod.mk.injEq] at h
      obtain ⟨hq, -⟩ := h
      refine ⟨0, ?_⟩
      rw [← hq]
      simp

/-- Every parse result of `parseFloatStr` has a denominator dividing a
power of ten. -/
lemma parseFloatStr_den {s : String} {q : ℚ} (h : parseFloatStr s = some q) :
    ∃ k : ℕ, q.den ∣ 10 ^ k := by
  unfold parseFloatStr at h
  rcases Option.map_eq_some'.mp h with ⟨⟨q2, rest⟩, hp, hq⟩
  simp only at hq
  subst hq
  unfold parseSignedFloat at hp
  split at hp
  · rcases Option.map_eq_some'.mp hp with ⟨⟨q3, r3⟩, hp3, hq3⟩
    simp only [Prod.mk.injEq] at hq3
    obtain ⟨hq3, -⟩ := hq3
    obtain ⟨k, hk⟩ := parseUnsignedFloat_den _ _ _ hp3
    refine ⟨k, ?_⟩
    rw [← hq3]
    simpa using hk
  · exact parseUnsignedFloat_den _ _ _ hp
  · exact parseUnsignedFloat_den _ _ _ hp

/-- The JS string rendering of a nonzero terminating rational parses back
to it with `parseFloat`. -/
lemma parseFloatStr_numToString (q : ℚ) (hq : q ≠ 0)
    (hm : (minDecExp q.den).isSome = true) :
    parseFloatStr (numToString q) = some q := by
  rcases lt_trichotomy q 0 with hneg | hz | hpos
  · have hmneg : (minDecExp (-q).den).isSome = true := by
      rwa [Rat.neg_den]
    unfold numToString
    rw [if_pos hneg]
    unfold parseFloatStr
    rw [toList_mk]
    have hdw : (('-' :: posDigits (-q)).dropWhile isWs) = '-' :: posDigits (-q) := by
      apply dropWhile_isWs_eq_self
      intro c hc
      simp at hc
      subst hc
      decide
    rw [hdw]
    have hps : parseSignedFloat ('-' :: posDigits (-q))
        = (parseUnsignedFloat (posDigits (-q))).map (fun p => (-p.1, p.2)) := rfl
    rw [hps, posDigits_roundtrip (-q) (by linarith) hmneg]
    simp
  · exact absurd hz hq
  · unfold numToString
    rw [if_neg (not_lt.mpr hpos.le), if_neg hq]
    unfold parseFloatStr
    rw [toList_mk]
    obtain ⟨c, t, hct⟩ : ∃ c t, posDigits q = c :: t := by
      rcases hpd : posDigits q with _ | ⟨c, t⟩
      · exact absurd hpd (posDigits_ne_nil q)
      · exact ⟨c, t, rfl⟩
    have hcmem : c ∈ posDigits q := by rw [hct]; exact List.mem_cons_self _ _
    have hnw : isWs c = false := by
      rcases posDigits_chars q c hcmem with hd | hd
      · exact isDig_not_ws hd
      · subst hd; decide
    have hdw : ((posDigits q).dropWhile isWs) = posDigits q := by
      apply dropWhile_isWs_eq_self
      intro c2 hc2
      rw [hct] at hc2
      simp at hc2
      subst hc2
      exact hnw
    rw [hdw]
    have hsigned : parseSignedFloat (posDigits q) = parseUnsignedFloat (posDigits q) := by
      rw [hct]
      rcases posDigits_chars q c hcmem with hd | hd
      · exact parseSignedFloat_head_dig hd
      · subst hd; rfl
    rw [hsigned, posDigits_roundtrip q hpos hm]
    rfl

/-- Every character of a number rendering is a digit, a point or a
minus sign. -/
lemma numToString_chars (q : ℚ) :
    ∀ c ∈ (numToString q).toList, isDig c = true ∨ c = '.' ∨ c = '-' := by
  unfold numToString
  split
  · rw [toList_mk]
    intro c hc
    rcases List.mem_cons.mp hc with h | h
    · exact Or.inr (Or.inr h)
    · rcases posDigits_chars _ c h with h2 | h2
      · exact Or.inl h2
      · exact Or.inr (Or.inl h2)
  · split
    · intro c hc
      have h0 : ("0" : String).toList = ['0'] := rfl
      rw [h0] at hc
      simp at hc
      subst hc
      exact Or.inl (by decide)
    · rw [toList_mk]
      intro c hc
      rcases posDigits_chars _ c hc with h2 | h2
      · exact Or.inl h2
      · exact Or.inr (Or.inl h2)

/-- A number rendering never contains the unit marker. -/
lemma K_not_mem_numToString (q : ℚ) : 'K' ∉ (numToString q).toList := by
  intro hK
  rcases numToString_chars q 'K' hK with h | h | h
  · exact absurd h (by decide)
  · exact absurd h (by decide)
  · exact absurd h (by decide)

/-- A number rendering contains no whitespace. -/
lemma ws_not_mem_numToString (q : ℚ) :
    ∀ c ∈ (numToString q).toList, isWs c = false := by
  intro c hc
  rcases numToString_chars q c hc with h | h | h
  · exact isDig_not_ws h
  · subst h; decide
  · subst h; decide

/-- Removing an absent character is the identity. -/
lemma removeFirst_of_not_mem {c : Char} :
    ∀ {l : List Char}, c ∉ l → removeFirst c l = l := by
  intro l
  induction l with
  | nil => intro _; rfl
  | cons x xs ih =>
    intro h
    have hx : ¬(x = c) := by
      rintro rfl
      exact h (List.mem_cons_self _ _)
    simp only [removeFirst, if_neg hx]
    rw [ih (fun hm => h (List.mem_cons_of_mem _ hm))]

/-- Trimming a whitespace-free list is the identity. -/
lemma trimL_of_no_ws {l : List Char} (h : ∀ c ∈ l, isWs c = false) :
    trimL l = l := by
  unfold trimL
  have h1 : l.dropWhile isWs = l := by
    cases l with
    | nil => rfl
    | cons c t => simp [List.dropWhile_cons, h c (List.mem_cons_self _ _)]
  rw [h1]
  have h2 : l.reverse.dropWhile isWs = l.reverse := by
    cases hr : l.reverse with
    | nil => rfl
    | cons c t =>
      have hcm : c ∈ l := by
        have : c ∈ l.reverse := by rw [hr]; exact List.mem_cons_self _ _
        exact List.mem_reverse.mp this
      simp [List.dropWhile_cons, h c hcm]
  rw [h2, List.reverse_reverse]

/-- A string built from a non-empty list is non-empty. -/
lemma mk_ne_empty {l : List Char} (h : l ≠ []) : String.mk l ≠ "" := by
  intro he
  apply h
  have h2 : (String.mk l).toList = ("" : String).toList := by rw [he]
  simpa using h2

/-- The rendering of a nonzero number is a non-empty string. -/
lemma numToString_ne_empty {q : ℚ} (hq : q ≠ 0) : numToString q ≠ "" := by
  unfold numToString
  split
  · exact mk_ne_empty (by simp)
  · exact mk_ne_empty (posDigits_ne_nil _)

/-- An undefined first operand defers to the second. -/
lemma jsOr_undef_left (b : JSVal) : jsOr .undef b = b := rfl

/-- The `x || null` pattern is stable under a second application. -/
lemma jsOr_null_idem (y : JSVal) : jsOr (jsOr y .null) .null = jsOr y .null := by
  unfold jsOr
  cases h : y.truthy
  · simp [h]
  · simp [h]

/-- An `x || "Unknown"`-style fallback is always truthy. -/
lemma jsOr_str_truthy (y : JSVal) {s : String} (hs : s ≠ "") :
    (jsOr y (.str s)).truthy = true := by
  unfold jsOr
  cases h : y.truthy
  · simp [h, JSVal.truthy, hs]
  · simp [h]

/-- A truthy first operand wins. -/
lemma jsOr_truthy_self {y : JSVal} (h : y.truthy = true) (b : JSVal) :
    jsOr y b = y := by
  unfold jsOr
  rw [h]
  rfl

/-- The normalized alert temperature is null, or a number obtained by
parsing the stripped temperature string. -/
lemma alertTemperature_form (row : RawRow) :
    (normalizeAlertRow row).temperature = .null ∨
    ∃ q, (normalizeAlertRow row).temperature = .num q ∧
      parseFloatStr (alertTempStr row) = some q := by
  by_cases hs : alertTempStr row = ""
  · left
    simp [normalizeAlertRow, hs]
  · cases hp : parseFloatStr (alertTempStr row) with
    | none =>
      left
      simp [normalizeAlertRow, hs, hp, jsNumOf, jsIsNaN, toNumber]
    | some q =>
      right
      exact ⟨q, by simp [normalizeAlertRow, hs, hp, jsNumOf, jsIsNaN, toNumber], rfl⟩

/-- The normalized alert vibration is null, NaN, or a number. -/
lemma alertVibration_form (row : RawRow) :
    (normalizeAlertRow row).vibration = .null ∨
    (normalizeAlertRow row).vibration = .nan ∨
    ∃ q, (normalizeAlertRow row).vibration = .num q := by
  have hv : (normalizeAlertRow row).vibration =
      (if jsOr row.Vibration row.vibration ≠ JSVal.null
          && jsOr row.Vibration row.vibration ≠ JSVal.undef
          && !jsIsNaN (jsOr row.Vibration row.vibration) then
        jsNumOf (parseFloatJS (jsOr row.Vibration row.vibration))
      else JSVal.null) := rfl
  rw [hv]
  split
  · cases hp : parseFloatJS (jsOr row.Vibration row.vibration) with
    | none => right; left; simp [jsNumOf, hp]
    | some q => right; right; exact ⟨q, by simp [jsNumOf, hp]⟩
  · left
    rfl

/-- JS `parseInt` of an integral number is the integer itself. -/
lemma parseIntJS_int (z : ℤ) : parseIntJS (.num ((z : ℤ) : ℚ)) = some z := by
  show some (if 0 ≤ ((z : ℤ) : ℚ) then ⌊((z : ℤ) : ℚ)⌋ else -⌊-((z : ℤ) : ℚ)⌋) = some z
  by_cases hz : 0 ≤ ((z : ℤ) : ℚ)
  · rw [if_pos hz, Int.floor_intCast]
  · rw [if_neg hz]
    rw [show (-((z : ℤ) : ℚ)) = (((-z : ℤ)) : ℚ) by push_cast; ring, Int.floor_intCast]
    simp

/-- Sensor-row normalization is idempotent. -/
lemma normalizeSensorRow_idem (row : RawRow) :
    normalizeSensorRow (normalizeSensorRow row) = normalizeSensorRow row := by
  have hm : parseIntJS (JSVal.num (((parseIntJS row.machine_id).getD 0 : ℤ) : ℚ))
      = some ((parseIntJS row.machine_id).getD 0) := parseIntJS_int _
  have ht : parseFloatJS (JSVal.num ((parseFloatJS row.temperature).getD 0))
      = some ((parseFloatJS row.temperature).getD 0) := rfl
  have hv : parseFloatJS (JSVal.num ((parseFloatJS row.vibration).getD 0))
      = some ((parseFloatJS row.vibration).getD 0) := rfl
  have hts : normalizeTimestamp (JSVal.num ((normalizeTimestamp row.timestamp : ℤ) : ℚ))
      = normalizeTimestamp row.timestamp := by
    show (⌊((normalizeTimestamp row.timestamp : ℤ) : ℚ)⌋ : ℤ) = _
    rw [Int.floor_intCast]
  ext <;> simp [normalizeSensorRow, hm, ht, hv, hts]

/-- The temperature field of an alert normalization, as a function of the
stripped temperature string. -/
lemma normalizeAlertRow_temperature_eq (row : RawRow) :
    (normalizeAlertRow row).temperature =
      (if alertTempStr row = "" then .null else
        match parseFloatStr (alertTempStr row) with
        | some q => .num q
        | none => .null) := by
  by_cases hs : alertTempStr row = ""
  · simp [normalizeAlertRow, hs]
  · cases hp : parseFloatStr (alertTempStr row) <;>
      simp [normalizeAlertRow, hs, hp, jsNumOf, jsIsNaN, toNumber]

/-- Re-normalizing a canonical alert record (truthy-or-null ids, a null or
renderable nonzero temperature, a null or numeric vibration, one truthy
label in both label fields) returns it unchanged. -/
lemma normalizeAlertRow_canonical (m ts t vb A : JSVal)
    (hm : jsOr m .null = m)
    (hts : jsOr ts .null = ts)
    (ht : t = .null ∨ ∃ q, t = .num q ∧ q ≠ 0 ∧ parseFloatStr (numToString q) = some q)
    (hvb : vb = .null ∨ ∃ q, vb = .num q)
    (hA : A.truthy = true) :
    normalizeAlertRow (canonRow m ts t vb A A) = canonRow m ts t vb A A := by
  apply RawRow.ext
  · show jsOr (jsOr .undef m) .null = m
    rw [jsOr_undef_left, hm]
  · rcases ht with rfl | ⟨q, rfl, hq0, hround⟩
    · rfl
    · have h1 : alertTempStr (canonRow m ts (.num q) vb A A) = numToString q := by
        show trimStr (String.mk (removeFirst 'K'
          (jsToString (jsOr (jsOr .undef (.num q)) (.str ""))).toList)) = _
        rw [jsOr_undef_left, jsOr_truthy_self (by simp [JSVal.truthy, hq0])]
        show trimStr (String.mk (removeFirst 'K' (numToString q).toList)) = _
        rw [removeFirst_of_not_mem (K_not_mem_numToString q)]
        unfold trimStr
        rw [toList_mk, trimL_of_no_ws (ws_not_mem_numToString q)]
        rfl
      rw [normalizeAlertRow_temperature_eq, h1,
        if_neg (numToString_ne_empty hq0), hround]
      rfl
  · rcases hvb with rfl | ⟨q, rfl⟩
    · rfl
    · rfl
  · show jsOr (jsOr .undef ts) .null = ts
    rw [jsOr_undef_left, hts]
  · rfl
  · rfl
  · rfl
  · rfl
  · rfl
  · rfl
  · show jsOr (jsOr A .undef) (.str "Unknown") = A
    rw [jsOr_truthy_self hA, jsOr_truthy_self hA]
  · rfl
  · show jsOr (jsOr A A) (.str "Unknown") = A
    rw [jsOr_truthy_self hA, jsOr_truthy_self hA]

/-- Renormalizing an alert-normalization output returns it unchanged,
provided its temperature is not the number 0, its vibration is not NaN,
and its two label fields agree. -/
lemma normalizeAlertRow_idem (row : RawRow)
    (ht0 : (normalizeAlertRow row).temperature ≠ .num 0)
    (hv0 : (normalizeAlertRow row).vibration ≠ .nan)
    (ha0 : (normalizeAlertRow row).Alert = (normalizeAlertRow row).alert_type) :
    normalizeAlertRow (normalizeAlertRow row) = normalizeAlertRow row := by
  have hre : normalizeAlertRow row
      = canonRow (normalizeAlertRow row).machine_id (normalizeAlertRow row).timestamp
          (normalizeAlertRow row).temperature (normalizeAlertRow row).vibration
          (normalizeAlertRow row).Alert (normalizeAlertRow row).Alert := by
    apply RawRow.ext <;> first | rfl | exact ha0.symm
  rw [hre]
  apply normalizeAlertRow_canonical
  · exact jsOr_null_idem _
  · exact jsOr_null_idem _
  · rcases alertTemperature_form row with h | ⟨q, hq, hps⟩
    · exact Or.inl h
    · have hq0 : q ≠ 0 := by
        rintro rfl
        exact ht0 hq
      right
      refine ⟨q, hq, hq0, ?_⟩
      obtain ⟨k, hk⟩ := parseFloatStr_den hps
      exact parseFloatStr_numToString q hq0 (minDecExp_isSome_of_dvd q.den_nz hk)
  · rcases alertVibration_form row with h | h | h
    · exact Or.inl h
    · exact absurd h hv0
    · exact Or.inr h
  · exact jsOr_str_truthy _ (by decide)

/-! ## Claim theorems -/

/-- C1: `normalizeTimestamp` follows exactly the ordered fallback of the
specification (null/undefined to 0, finite number floored, numeric string
floored, date string to floored epoch seconds, otherwise 0), and the five
worked examples of the specification hold. -/
theorem C1_normalizeTimestamp_fallback :
    (∀ v : JSVal, normalizeTimestamp v = normalizeTimestampSpec v) ∧
    normalizeTimestamp (.num 1700000000) = 1700000000 ∧
    normalizeTimestamp (.str "1700000000") = 1700000000 ∧
    normalizeTimestamp (.str "2023-11-14T00:00:00Z") = 1699920000 ∧
    normalizeTimestamp .null = 0 ∧
    normalizeTimestamp (.str "not-a-date") = 0 := by
  refine ⟨fun v => ?_, by decide, by decide, by decide, by decide, by decide⟩
  cases v <;> rfl

/-- C5: `calculateStatistics` counts distinct machine ids with the 100
fallback and the readings length with the 10000 fallback, so the reading
count entering the health-score division is never zero. -/
theorem C5_counts_with_fallbacks (sd al : List RawRow) :
    (calculateStatistics sd al).machines
      = (if (sd.map (fun d => d.machine_id)).dedup.length = 0 then 100
         else (sd.map (fun d => d.machine_id)).dedup.length) ∧
    (calculateStatistics sd al).readings
      = (if sd.length = 0 then 10000 else sd.length) ∧
    0 < (calculateStatistics sd al).readings :=
  ⟨rfl, rfl, readings_pos sd al⟩

/-- C7: severity classification is substring-based, case-sensitive and
counted by independent predicates; loading the specification's single
alert row and single sensor row through the pipeline yields one critical,
no warning, no normal, and machine 1 status critical.  A lowercase label
is not counted, and a label containing all three tokens is counted in all
three buckets. -/
theorem C7_end_to_end_classification :
    (calculateStatistics sensorEx alertsEx).critical = 1 ∧
    (calculateStatistics sensorEx alertsEx).warnings = 0 ∧
    (calculateStatistics sensorEx alertsEx).normal = 0 ∧
    (machineStatsList sensorEx alertsEx).map (fun m => m.status) = ["critical"] ∧
    (calculateStatistics sensorEx (normalizeData
      [{ rawAlertEx with Alert := .str "critical: high temperature" }] "alerts")).critical = 0 ∧
    (calculateStatistics sensorEx (normalizeData
      [{ rawAlertEx with Alert := .str "CRITICAL WARNING Normal" }] "alerts")).critical = 1 ∧
    (calculateStatistics sensorEx (normalizeData
      [{ rawAlertEx with Alert := .str "CRITICAL WARNING Normal" }] "alerts")).warnings = 1 ∧
    (calculateStatistics sensorEx (normalizeData
      [{ rawAlertEx with Alert := .str "CRITICAL WARNING Normal" }] "alerts")).normal = 1 := by
  decide

/-- C10: alert-row alias resolution goes through JS truthiness, so a
machine id or timestamp holding 0 normalizes to null, a numeric-0
temperature normalizes to null, and an empty or absent label falls back
to `"Unknown"`. -/
theorem C10_truthiness_alias_resolution :
    (∀ row : RawRow, (row.Machine = .num 0 ∨ row.Machine = .undef) →
      (row.machine_id = .num 0 ∨ row.machine_id = .undef) →
      (normalizeAlertRow row).machine_id = .null) ∧
    (∀ row : RawRow, (row.Time = .num 0 ∨ row.Time = .undef) →
      (row.timestamp = .num 0 ∨ row.timestamp = .undef) →
      (normalizeAlertRow row).timestamp = .null) ∧
    (∀ row : RawRow, (row.Temp = .num 0 ∨ row.Temp = .undef) →
      (row.temperature = .num 0 ∨ row.temperature = .undef) →
      (normalizeAlertRow row).temperature = .null) ∧
    (∀ row : RawRow, (row.Alert = .str "" ∨ row.Alert = .undef) →
      (row.alert = .str "" ∨ row.alert = .undef) →
      (normalizeAlertRow row).Alert = .str "Unknown") := by
  refine ⟨fun row h1 h2 => ?_, fun row h1 h2 => ?_, fun row h1 h2 => ?_,
    fun row h1 h2 => ?_⟩ <;>
    rcases h1 with h1 | h1 <;> rcases h2 with h2 | h2 <;>
    simp [normalizeAlertRow, alertTempStr, h1, h2, jsOr, JSVal.truthy,
      jsToString, trimStr, trimL, removeFirst, jsNumOf]

/-- Witness for C10 at a concrete row whose id, time and temperature
fields all hold 0 and whose label fields are absent. -/
theorem C10_witness :
    (normalizeAlertRow { Machine := .num 0, Time := .num 0, Temp := .num 0 }).machine_id = .null ∧
    (normalizeAlertRow { Machine := .num 0, Time := .num 0, Temp := .num 0 }).timestamp = .null ∧
    (normalizeAlertRow { Machine := .num 0, Time := .num 0, Temp := .num 0 }).temperature = .null ∧
    (normalizeAlertRow { Machine := .num 0, Time := .num 0, Temp := .num 0 }).Alert = .str "Unknown" :=
  ⟨C10_truthiness_alias_resolution.1 _ (Or.inl rfl) (Or.inr rfl),
   C10_truthiness_alias_resolution.2.1 _ (Or.inl rfl) (Or.inr rfl),
   C10_truthiness_alias_resolution.2.2.1 _ (Or.inl rfl) (Or.inr rfl),
   C10_truthiness_alias_resolution.2.2.2 _ (Or.inr rfl) (Or.inr rfl)⟩

/-- C2: sensor-row normalization produces the integer parse of
`machine_id` (0 on failure), the float parses of `temperature` and
`vibration` (0 on failure) and `normalizeTimestamp` of the timestamp;
every normalized field is a finite number (never null, undefined or NaN),
and a non-parsing field yields 0. -/
theorem C2_sensor_normalization_total (row : RawRow) :
    (normalizeSensorRow row).machine_id = .num (((parseIntJS row.machine_id).getD 0 : ℤ) : ℚ) ∧
    (normalizeSensorRow row).temperature = .num ((parseFloatJS row.temperature).getD 0) ∧
    (normalizeSensorRow row).vibration = .num ((parseFloatJS row.vibration).getD 0) ∧
    (normalizeSensorRow row).timestamp = .num ((normalizeTimestamp row.timestamp : ℤ) : ℚ) ∧
    isNum (normalizeSensorRow row).machine_id = true ∧
    isNum (normalizeSensorRow row).temperature = true ∧
    isNum (normalizeSensorRow row).vibration = true ∧
    isNum (normalizeSensorRow row).timestamp = true ∧
    (parseIntJS row.machine_id = none → (normalizeSensorRow row).machine_id = .num 0) ∧
    (parseFloatJS row.temperature = none → (normalizeSensorRow row).temperature = .num 0) ∧
    (parseFloatJS row.vibration = none → (normalizeSensorRow row).vibration = .num 0) := by
  refine ⟨rfl, rfl, rfl, rfl, rfl, rfl, rfl, rfl, fun h => ?_, fun h => ?_, fun h => ?_⟩ <;>
    simp [normalizeSensorRow, h]

/-- Witness for C2 at a row whose fields are all non-numeric garbage. -/
theorem C2_witness :
    (normalizeSensorRow garbageRow).machine_id = .num 0 ∧
    (normalizeSensorRow garbageRow).temperature = .num 0 ∧
    (normalizeSensorRow garbageRow).vibration = .num 0 ∧
    isNum (normalizeSensorRow garbageRow).timestamp = true :=
  ⟨(C2_sensor_normalization_total garbageRow).2.2.2.2.2.2.2.2.1 (by decide),
   (C2_sensor_normalization_total garbageRow).2.2.2.2.2.2.2.2.2.1 (by decide),
   (C2_sensor_normalization_total garbageRow).2.2.2.2.2.2.2.2.2.2 (by decide),
   (C2_sensor_normalization_total garbageRow).2.2.2.2.2.2.2.1⟩

/-- C4: the dashboard health score is
`max 0 (100 - (critical + warnings) / readings * 100)`; with no anomalies
it is 100, when anomalies reach the reading count it is 0, and it always
lies in `[0, 100]`. -/
theorem C4_health_score_formula (sd al : List RawRow) :
    (calculateStatistics sd al).health
      = max 0 (100 - (((calculateStatistics sd al).critical
          + (calculateStatistics sd al).warnings : ℚ)
          / ((calculateStatistics sd al).readings : ℚ)) * 100) ∧
    ((calculateStatistics sd al).critical + (calculateStatistics sd al).warnings = 0 →
      (calculateStatistics sd al).health = 100) ∧
    (((calculateStatistics sd al).readings : ℚ)
        ≤ ((calculateStatistics sd al).critical + (calculateStatistics sd al).warnings : ℚ) →
      (calculateStatistics sd al).health = 0) ∧
    0 ≤ (calculateStatistics sd al).health ∧
    (calculateStatistics sd al).health ≤ 100 := by
  have hr : 0 < ((calculateStatistics sd al).readings : ℚ) := by
    have h := readings_pos sd al
    exact_mod_cast h
  have key : (((calculateStatistics sd al).critical
        + (calculateStatistics sd al).warnings : ℕ) : ℚ)
      = ((calculateStatistics sd al).critical : ℚ)
        + ((calculateStatistics sd al).warnings : ℚ) := by
    push_cast
    ring
  have hform : (calculateStatistics sd al).health
      = max 0 (100 - (((calculateStatistics sd al).critical
          + (calculateStatistics sd al).warnings : ℚ)
          / ((calculateStatistics sd al).readings : ℚ)) * 100) := by
    show max 0 (100 - ((((calculateStatistics sd al).critical
        + (calculateStatistics sd al).warnings : ℕ) : ℚ)
        / ((calculateStatistics sd al).readings : ℚ)) * 100) = _
    rw [key]
  set c := ((calculateStatistics sd al).critical : ℚ) with hc
  set w := ((calculateStatistics sd al).warnings : ℚ) with hw
  set r := ((calculateStatistics sd al).readings : ℚ) with hrdef
  have hc0 : 0 ≤ c := by positivity
  have hw0 : 0 ≤ w := by positivity
  have hrate : 0 ≤ (c + w) / r * 100 := by positivity
  refine ⟨hform, fun h => ?_, fun h => ?_, ?_, ?_⟩
  · rw [hform]
    have : c + w = 0 := by
      rw [hc, hw]; exact_mod_cast h
    rw [this]
    norm_num
  · rw [hform]
    have h1 : (1 : ℚ) ≤ (c + w) / r := (one_le_div hr).mpr h
    have : (100 : ℚ) ≤ (c + w) / r * 100 := by nlinarith
    have : 100 - (c + w) / r * 100 ≤ 0 := by linarith
    exact max_eq_left this
  · rw [hform]; exact le_max_left _ _
  · rw [hform]
    refine max_le (by norm_num) (by linarith)

/-- Witness for C4: with the example sensor row and no alerts the health
score is 100 and the clamped-zero case holds with one alert row per
reading. -/
theorem C4_witness :
    (calculateStatistics sensorEx []).health = 100 ∧
    (calculateStatistics sensorEx alertsEx).health = 0 :=
  ⟨(C4_health_score_formula sensorEx []).2.1 (by decide),
   (C4_health_score_formula sensorEx alertsEx).2.2.1 (by decide)⟩

/-- Counterexample to C3 as stated: the source removes the first `'K'`
anywhere in the string, not a trailing unit marker, so the raw value
`"K5"` is non-numeric after the claim's trailing-strip yet normalizes to
the number 5 instead of null. -/
theorem C3_counterexample :
    (normalizeAlertRow { Temp := .str "K5" }).temperature = .num 5 ∧
    (normalizeAlertRow { Temp := .str "K5" }).temperature ≠ .null ∧
    claimStripK "K5" ≠ "" ∧
    parseFloatStr (claimStripK "K5") = none := by
  decide

/-- C3 amended: the unit strip removes the first `'K'` anywhere (then
trims); the normalized alert temperature is null exactly when the
stripped string is empty or fails to parse as a float, and a value of 0
arises only from a genuine parse of 0. -/
theorem C3_amended_temperature_null_iff (row : RawRow) :
    ((normalizeAlertRow row).temperature = .null ↔
      (alertTempStr row = "" ∨ parseFloatStr (alertTempStr row) = none)) ∧
    ((normalizeAlertRow row).temperature = .num 0 →
      parseFloatStr (alertTempStr row) = some 0) := by
  by_cases hs : alertTempStr row = ""
  · constructor
    · simp [normalizeAlertRow, hs]
    · intro h
      simp [normalizeAlertRow, hs] at h
  · cases hp : parseFloatStr (alertTempStr row) with
    | none =>
      constructor
      · simp [normalizeAlertRow, hs, hp, jsNumOf, jsIsNaN, toNumber]
      · intro h
        simp [normalizeAlertRow, hs, hp, jsNumOf, jsIsNaN, toNumber] at h
    | some q =>
      constructor
      · simp [normalizeAlertRow, hs, hp, jsNumOf, jsIsNaN, toNumber]
      · intro h
        simp [normalizeAlertRow, hs, hp, jsNumOf, jsIsNaN, toNumber] at h
        rw [h]

/-- Witness for the amended C3 at the raw value `"0"`: its normalized
temperature is the genuine zero reading, so the stripped string parses
to 0. -/
theorem C3_witness :
    parseFloatStr (alertTempStr { Temp := JSVal.str "0" }) = some 0 :=
  (C3_amended_temperature_null_iff { Temp := JSVal.str "0" }).2 (by decide)

/-- Counterexample to C6 as stated: two readings with negative
temperatures give a machine whose average temperature is negative, the
signed deviation term makes the health score exceed 100, and the risk
score comes out as -50, outside `[0, 100]`. -/
theorem C6_counterexample :
    (machineStatsList [plainReading (-10), plainReading (-30)] []).map
      (fun m => m.riskScore) = [some (-50)] ∧
    ¬ (∀ rs ∈ (machineStatsList [plainReading (-10), plainReading (-30)] []).map
      (fun m => m.riskScore), ∀ q ∈ rs, 0 ≤ q ∧ q ≤ 100) := by
  refine ⟨by decide, ?_⟩
  intro h
  have := h (some (-50)) (by decide) (-50) rfl
  norm_num at this

/-- Counterexample to C8 as stated: normalizing the already-normalized
output of the alerts dataset a second time changes it (the `alert_type`
field is overwritten by the `Alert` field). -/
theorem C8_counterexample :
    normalizeData (normalizeData [{ alert := .str "X" }] "alerts") "alerts"
      ≠ normalizeData [{ alert := .str "X" }] "alerts" := by
  decide

/-- Counterexample to C9 as stated: the first generated mock alert row
(under the constant-zero random stream) does not satisfy the field-type
invariant of normalized alert data — its `temperature` field is absent
rather than a float or null — while a normalized real alert row does. -/
theorem C9_counterexample :
    ((generateMockData (fun _ => 0) "alerts").head?.map
      (fun r => isNumOrNull r.temperature)) = some false ∧
    (alertsEx.head?.map (fun r => isNumOrNull r.temperature)) = some true := by
  decide

/-- C9 amended: the generator always produces exactly 1000 rows for each
dataset; sensor mock rows satisfy the normalized-sensor field-type
invariants, while alert mock rows follow the raw alert schema that the
downstream consumers accept through field aliases. -/
theorem C9_amended_mock_generator (r : ℕ → ℚ) :
    (generateMockData r "sensor_data").length = 1000 ∧
    (generateMockData r "alerts").length = 1000 ∧
    (generateMockData r "sensor_data").all numericRow = true ∧
    (generateMockData r "alerts").all mockAlertShape = true := by
  have hs : generateMockData r "sensor_data" = mockSensorLoop r 0 1 1000 := rfl
  have ha : generateMockData r "alerts" = mockAlertLoop r 0 1 1000 := rfl
  refine ⟨?_, ?_, ?_, ?_⟩
  · rw [hs, mockSensorLoop_length]
  · rw [ha, mockAlertLoop_length]
  · rw [hs]
    exact List.all_eq_true.mpr (fun x hx => mockSensorLoop_shape r 0 1 1000 x hx)
  · rw [ha]
    exact List.all_eq_true.mpr (fun x hx => mockAlertLoop_shape r 0 1 1000 x hx)

/-- C6 amended: for every machine of the aggregation over numeric sensor
rows, the health and risk formulas hold exactly as specified (zero
averages contribute a zero deviation term); the risk score is always at
most 100, and it is also nonnegative whenever the machine's average
temperature and vibration are nonnegative. -/
theorem C6_amended_risk_formula (sd al : List RawRow) (m : MachineStat)
    (hsd : ∀ r ∈ sd, numericRow r = true)
    (hm : m ∈ machineStatsList sd al) :
    ∃ a v l lv h rs,
      m.avgTemp = some a ∧ m.avgVibration = some v ∧
      m.lastTemp = some l ∧ m.lastVibration = some lv ∧
      m.healthScore = some h ∧ m.riskScore = some rs ∧
      h = max 0 (100 - ((if a = 0 then 0 else |l - a| / a * 100)
        + (if v = 0 then 0 else |lv - v| / v * 100))) ∧
      rs = min 100 ((⌊(100 - h) + ((criticalAlertsFor al m.id : ℚ) * 5
        + (warningAlertsFor al m.id : ℚ) * 2) + 1 / 2⌋ : ℤ) : ℚ) ∧
      rs ≤ 100 ∧
      (0 ≤ a → 0 ≤ v → 0 ≤ rs) := by
  obtain ⟨acc, hacc, rfl⟩ := List.mem_map.mp hm
  obtain ⟨hread, hA, hV, hL, hLV⟩ := firstPass_entry sd hsd acc hacc
  obtain ⟨sA, hsA⟩ := Option.isSome_iff_exists.mp hA
  obtain ⟨sV, hsV⟩ := Option.isSome_iff_exists.mp hV
  obtain ⟨l, hl⟩ := Option.isSome_iff_exists.mp hL
  obtain ⟨lv, hlv⟩ := Option.isSome_iff_exists.mp hLV
  have hn : ((acc.readings : ℚ)) ≠ 0 := by
    have h1 : (1 : ℚ) ≤ (acc.readings : ℚ) := by exact_mod_cast hread
    linarith
  set n : ℚ := (acc.readings : ℚ) with hndef
  set a := sA / n with hadef
  set v := sV / n with hvdef
  have havgT : divO acc.avgTemp (some n) = some a := by
    rw [hsA]; simp [divO, hn, hadef]
  have havgV : divO acc.avgVibration (some n) = some v := by
    rw [hsV]; simp [divO, hn, hvdef]
  set td := if a = 0 then 0 else |l - a| / a * 100 with htd
  set vd := if v = 0 then 0 else |lv - v| / v * 100 with hvd
  set h := max 0 (100 - (td + vd)) with hh
  set ca : ℚ := (criticalAlertsFor al acc.id : ℚ) with hca
  set wa : ℚ := (warningAlertsFor al acc.id : ℚ) with hwa
  set rs : ℚ := min 100 ((⌊(100 - h) + (ca * 5 + wa * 2) + 1 / 2⌋ : ℤ) : ℚ) with hrs
  have hid : (finishStat al acc).id = acc.id := by simp [finishStat]
  refine ⟨a, v, l, lv, h, rs, ?_, ?_, ?_, ?_, ?_, ?_, hh, ?_, ?_, ?_⟩
  · simp [finishStat, havgT]
  · simp [finishStat, havgV]
  · simp [finishStat, hl]
  · simp [finishStat, hlv]
  · simp only [finishStat, havgT, havgV, hl, hlv, subO, devPct_eq, addO, maxO]
  · simp only [finishStat, havgT, havgV, hl, hlv, subO, devPct_eq, addO, maxO,
      roundO, minO]
  · rw [hid]
  · rw [hrs]
    exact min_le_left _ _
  · intro ha0 hv0
    have htd0 : 0 ≤ td := by
      rw [htd]
      split
      · exact le_refl 0
      · rename_i h0
        have hpos : 0 < a := lt_of_le_of_ne ha0 (Ne.symm h0)
        positivity
    have hvd0 : 0 ≤ vd := by
      rw [hvd]
      split
      · exact le_refl 0
      · rename_i h0
        have hpos : 0 < v := lt_of_le_of_ne hv0 (Ne.symm h0)
        positivity
    have hh100 : h ≤ 100 := by
      rw [hh]
      exact max_le (by norm_num) (by linarith)
    have hca0 : 0 ≤ ca := by rw [hca]; positivity
    have hwa0 : 0 ≤ wa := by rw [hwa]; positivity
    have hx : (0 : ℚ) ≤ (100 - h) + (ca * 5 + wa * 2) + 1 / 2 := by linarith
    have hfl : (0 : ℤ) ≤ ⌊(100 - h) + (ca * 5 + wa * 2) + 1 / 2⌋ :=
      Int.floor_nonneg.mpr hx
    rw [hrs]
    refine le_min (by norm_num) ?_
    exact_mod_cast hfl




/-- Witness for the amended C6 at the example sensor row with no
alerts. -/
theorem C6_witness :
    ∃ a v l lv h rs,
      statEx.avgTemp = some a ∧ statEx.avgVibration = some v ∧
      statEx.lastTemp = some l ∧ statEx.lastVibration = some lv ∧
      statEx.healthScore = some h ∧ statEx.riskScore = some rs ∧
      h = max 0 (100 - ((if a = 0 then 0 else |l - a| / a * 100)
        + (if v = 0 then 0 else |lv - v| / v * 100))) ∧
      rs = min 100 ((⌊(100 - h) + ((criticalAlertsFor [] statEx.id : ℚ) * 5
        + (warningAlertsFor [] statEx.id : ℚ) * 2) + 1 / 2⌋ : ℤ) : ℚ) ∧
      rs ≤ 100 ∧
      (0 ≤ a → 0 ≤ v → 0 ≤ rs) :=
  C6_amended_risk_formula [rawSensorEx] [] statEx (by decide) (by decide)

/-- C8 amended: sensor-reading normalization is idempotent on every
input; alert normalization is idempotent on every output row whose
temperature is not the number 0, whose vibration is not NaN, and whose
two label fields agree (renormalizing turns a 0 temperature into null, a
NaN vibration into null, and overwrites `alert_type` with `Alert`). -/
theorem C8_amended_idempotence :
    (∀ data : List RawRow,
      normalizeData (normalizeData data "sensor_data") "sensor_data"
        = normalizeData data "sensor_data") ∧
    (∀ data : List RawRow,
      (∀ row ∈ normalizeData data "alerts",
        row.temperature ≠ .num 0 ∧ row.vibration ≠ .nan ∧
          row.Alert = row.alert_type) →
      normalizeData (normalizeData data "alerts") "alerts"
        = normalizeData data "alerts") := by
  have hks : containsSub "sensor_data" "alerts" = false := by decide
  have hka : containsSub "alerts" "alerts" = true := by decide
  constructor
  · intro data
    by_cases hd : data = []
    · subst hd; rfl
    · have h1 : normalizeData data "sensor_data" = data.map normalizeSensorRow := by
        simp [normalizeData, hd, hks]
      have hne : data.map normalizeSensorRow ≠ [] := by simpa using hd
      rw [h1]
      have h2 : normalizeData (data.map normalizeSensorRow) "sensor_data"
          = (data.map normalizeSensorRow).map normalizeSensorRow := by
        simp [normalizeData, hne, hks]
      rw [h2, List.map_map]
      apply List.map_congr_left
      intro r _
      exact normalizeSensorRow_idem r
  · intro data h
    by_cases hd : data = []
    · subst hd
      rfl
    · have h1 : normalizeData data "alerts" = data.map normalizeAlertRow := by
        simp [normalizeData, hd, hka]
      have hne : data.map normalizeAlertRow ≠ [] := by simpa using hd
      rw [h1] at h ⊢
      have h2 : normalizeData (data.map normalizeAlertRow) "alerts"
          = (data.map normalizeAlertRow).map normalizeAlertRow := by
        simp [normalizeData, hne, hka]
      rw [h2, List.map_map]
      apply List.map_congr_left
      intro r hr
      obtain ⟨ht0, hv0, ha0⟩ := h _ (List.mem_map_of_mem _ hr)
      exact normalizeAlertRow_idem r ht0 hv0 ha0

/-- Witness for the amended C8: the normalized example alert dataset is a
fixed point of a second normalization. -/
theorem C8_witness :
    normalizeData (normalizeData [rawAlertEx] "alerts") "alerts"
      = normalizeData [rawAlertEx] "alerts" :=
  C8_amended_idempotence.2 [rawAlertEx] (by decide)

end MMS
